import Mathlib

/-!
Shallow embedding of the WireGuard FreeBSD cookie subsystem
(`src/wg_cookie.c`, `src/wg_cookie.h`): the cookie maker, the MAC
validation path of the cookie checker, and the per-address-family
initiation rate limiter with its token bucket.

Cryptographic primitives (BLAKE2s-based MACs, XChaCha20-Poly1305,
SipHash) are out of scope of the code under study and are passed in as
function parameters; time (`getsbinuptime`) and the slab allocator are
modelled as explicit inputs.  Machine integers are modelled as `Nat`
and `Int` with explicit reduction modulo `2 ^ 64` where the C code
performs unsigned 64-bit arithmetic.
-/

namespace WgCookie

/-- FreeBSD `sbintime_t` scale: `SBT_1S = 1 << 32` (32.32 fixed-point seconds). -/
def SBT_1S : Int := 4294967296

/-- FreeBSD `nstosbt` (nanoseconds to `sbintime_t`); the cookie code only
ever calls it with `nsec = 0`, where any faithful model returns 0. -/
def nstosbt (ns : Nat) : Int := ((ns : Int) * SBT_1S) / 1000000000

/-- FreeBSD `AF_INET`. -/
def AF_INET : Nat := 2

/-- FreeBSD `AF_INET6`. -/
def AF_INET6 : Nat := 28

/-- FreeBSD errno `EINVAL`. -/
def EINVAL : Nat := 22

/-- FreeBSD errno `EAGAIN`. -/
def EAGAIN : Nat := 35

/-- FreeBSD errno `EAFNOSUPPORT`. -/
def EAFNOSUPPORT : Nat := 47

/-- FreeBSD errno `ETIMEDOUT`. -/
def ETIMEDOUT : Nat := 60

/-- FreeBSD errno `ECONNREFUSED`. -/
def ECONNREFUSED : Nat := 61

/-- `COOKIE_MAC_SIZE` from `wg_cookie.h`. -/
def COOKIE_MAC_SIZE : Nat := 16

/-- `COOKIE_SECRET_MAX_AGE` from `wg_cookie.c`. -/
def COOKIE_SECRET_MAX_AGE : Nat := 120

/-- `COOKIE_SECRET_LATENCY` from `wg_cookie.c`. -/
def COOKIE_SECRET_LATENCY : Nat := 5

/-- `RATELIMIT_SIZE` from `wg_cookie.c` (`1 << 13`). -/
def RATELIMIT_SIZE : Nat := 8192

/-- `RATELIMIT_SIZE_MAX` from `wg_cookie.c` (`RATELIMIT_SIZE * 8`). -/
def RATELIMIT_SIZE_MAX : Nat := RATELIMIT_SIZE * 8

/-- `INITIATIONS_PER_SECOND` from `wg_cookie.c`. -/
def INITIATIONS_PER_SECOND : Nat := 20

/-- `INITIATIONS_BURSTABLE` from `wg_cookie.c`. -/
def INITIATIONS_BURSTABLE : Nat := 5

/-- `INITIATION_COST = SBT_1S / INITIATIONS_PER_SECOND` (C truncating
division of positive values). -/
def INITIATION_COST : Nat := 4294967296 / INITIATIONS_PER_SECOND

/-- `TOKEN_MAX = INITIATION_COST * INITIATIONS_BURSTABLE`. -/
def TOKEN_MAX : Nat := INITIATION_COST * INITIATIONS_BURSTABLE

/-- `IPV4_MASK_SIZE` from `wg_cookie.c`. -/
def IPV4_MASK_SIZE : Nat := 4

/-- `IPV6_MASK_SIZE` from `wg_cookie.c`. -/
def IPV6_MASK_SIZE : Nat := 8

/-- `2 ^ 64`, the modulus of C `uint64_t` arithmetic. -/
def UINT64_MOD : Nat := 18446744073709551616

/-- `cookie_timer_expired(timer, sec, nsec)` with the internal
`getsbinuptime()` read made an explicit argument `now`:
returns `ETIMEDOUT` when `now > timer + sec * SBT_1S + nstosbt nsec`,
else 0. -/
def cookie_timer_expired (timer : Int) (sec : Nat) (nsec : Nat) (now : Int) : Nat :=
  if timer + (sec : Int) * SBT_1S + nstosbt nsec < now then ETIMEDOUT else 0

/-- `struct cookie_macs`. -/
structure CookieMacs where
  mac1 : List Nat
  mac2 : List Nat
  deriving DecidableEq

/-- `struct cookie_maker` (the `cp_lock` rwlock is not part of the
sequential model). -/
structure CookieMaker where
  cp_mac1_key : List Nat
  cp_cookie_key : List Nat
  cp_cookie : List Nat
  cp_birthdate : Int
  cp_mac1_valid : Bool
  cp_mac1_last : List Nat
  deriving DecidableEq

/-- `cookie_maker_mac(cp, cm, buf, len)`.  The BLAKE2s-based primitives
`cookie_macs_mac1` (arguments: message, key) and `cookie_macs_mac2`
(arguments: message, cookie key, mac1 absorbed after the message) are
passed in as `mac1fn` / `mac2fn`; `now` is the `getsbinuptime()` value
read by `cookie_timer_expired`.  Returns the updated maker and the
produced `cookie_macs`. -/
def cookie_maker_mac (mac1fn : List Nat → List Nat → List Nat)
    (mac2fn : List Nat → List Nat → List Nat → List Nat)
    (cp : CookieMaker) (buf : List Nat) (now : Int) : CookieMaker × CookieMacs :=
  let m1 := mac1fn buf cp.cp_mac1_key
  let m2 :=
    if cookie_timer_expired cp.cp_birthdate
        (COOKIE_SECRET_MAX_AGE - COOKIE_SECRET_LATENCY) 0 now = 0 then
      mac2fn buf cp.cp_cookie m1
    else
      List.replicate COOKIE_MAC_SIZE 0
  ({ cp with cp_mac1_last := m1, cp_mac1_valid := true },
   { mac1 := m1, mac2 := m2 })

/-- `cookie_maker_consume_payload(cp, nonce, ecookie)`.  The AEAD open
`xchacha20poly1305_decrypt` is passed in as `decryptFn` (arguments:
ciphertext, associated data = `cp_mac1_last`, nonce, key); it returns
`some plaintext` on tag success and `none` on failure, matching the C
return value of 1 resp. 0.  `now` is the `getsbinuptime()` read on the
success path. -/
def cookie_maker_consume_payload
    (decryptFn : List Nat → List Nat → List Nat → List Nat → Option (List Nat))
    (cp : CookieMaker) (nonce ecookie : List Nat) (now : Int) :
    CookieMaker × Nat :=
  if cp.cp_mac1_valid = false then
    (cp, ETIMEDOUT)
  else
    match decryptFn ecookie cp.cp_mac1_last nonce cp.cp_cookie_key with
    | none => (cp, EINVAL)
    | some cookie =>
      ({ cp with cp_cookie := cookie, cp_birthdate := now, cp_mac1_valid := false }, 0)

/-- `struct sockaddr` as the cookie code reads it: family, address
bytes, port. -/
structure Sockaddr where
  sa_family : Nat
  sa_addr : List Nat
  sa_port : Nat
  deriving DecidableEq

/-- `struct ratelimit_entry`: family, stored prefix bytes (4 bytes of
`r_in` for IPv4, the first 8 bytes of `r_in6` for IPv6), `r_last_time`,
`r_tokens`. -/
structure RatelimitEntry where
  r_af : Nat
  r_in : List Nat
  r_last_time : Int
  r_tokens : Nat
  deriving DecidableEq

/-- Number of address bytes the rate limiter keys on for a family:
`IPV4_MASK_SIZE` for `AF_INET`, `IPV6_MASK_SIZE` for `AF_INET6`. -/
def mask_size (af : Nat) : Nat :=
  if af = AF_INET then IPV4_MASK_SIZE else IPV6_MASK_SIZE

/-- The address bytes `ratelimit_allow` hashes and compares for `sa`. -/
def sa_masked (sa : Sockaddr) : List Nat :=
  sa.sa_addr.take (mask_size sa.sa_family)

/-- The `LIST_FOREACH` match test of `ratelimit_allow`: same family and
`bcmp` of the masked address bytes equal. -/
def entry_matches (af : Nat) (pfx : List Nat) (r : RatelimitEntry) : Bool :=
  r.r_af = af && r.r_in = pfx

/-- C `tokens = r->r_tokens + diff`: `uint64_t` plus signed `sbintime_t`,
wrapping modulo `2 ^ 64`. -/
def addDiff (tokens : Nat) (diff : Int) : Nat :=
  (((tokens : Int) + diff) % (UINT64_MOD : Int)).toNat

/-- `struct ratelimit`.  `rl_hash` is `siphash13` keyed by `rl_secret`
(abstracted to an arbitrary function of the hashed address bytes);
`rl_table` is the `hashinit` bucket array, `rl_table_mask` its mask,
`rl_table_num` the live entry count. -/
structure Ratelimit where
  rl_hash : List Nat → Nat
  rl_table : Nat → List RatelimitEntry
  rl_table_mask : Nat
  rl_table_num : Nat

/-- The token-bucket body of `ratelimit_allow` applied to a found
entry: `diff = now - r_last_time`, `r_last_time = now`,
`tokens = r_tokens + diff` in `uint64_t`, capped at `TOKEN_MAX`; allow
(verdict 0) and charge `INITIATION_COST` when `tokens ≥
INITIATION_COST`, else refuse (`ECONNREFUSED`) and store the
replenished tokens. -/
def entry_step (now : Int) (r : RatelimitEntry) : RatelimitEntry × Nat :=
  let diff := now - r.r_last_time
  let tokens0 := addDiff r.r_tokens diff
  let tokens := if TOKEN_MAX < tokens0 then TOKEN_MAX else tokens0
  if INITIATION_COST ≤ tokens then
    ({ r with r_last_time := now, r_tokens := tokens - INITIATION_COST }, 0)
  else
    ({ r with r_last_time := now, r_tokens := tokens }, ECONNREFUSED)

/-- The `LIST_FOREACH` loop of `ratelimit_allow` over one bucket: find
the first entry matching `(af, pfx)`, apply `entry_step` to it in
place, and report the verdict; `none` when no entry matches. -/
def ratelimit_bucket_update (now : Int) (af : Nat) (pfx : List Nat) :
    List RatelimitEntry → Option (List RatelimitEntry × Nat)
  | [] => none
  | r :: rest =>
    if entry_matches af pfx r then
      some ((entry_step now r).1 :: rest, (entry_step now r).2)
    else
      match ratelimit_bucket_update now af pfx rest with
      | none => none
      | some (rest', ret) => some (r :: rest', ret)

/-- `ratelimit_allow(rl, sa)` with `getsbinuptime()` passed as `now` and
the success of `uma_zalloc(…, M_NOWAIT)` passed as `allocOk`.  Returns
the updated rate limiter and the verdict (0 = allow, `ECONNREFUSED` =
refuse). -/
def ratelimit_allow (rl : Ratelimit) (sa : Sockaddr) (now : Int)
    (allocOk : Bool) : Ratelimit × Nat :=
  if sa.sa_family = AF_INET ∨ sa.sa_family = AF_INET6 then
    let pfx := sa_masked sa
    let idx := rl.rl_hash pfx &&& rl.rl_table_mask
    match ratelimit_bucket_update now sa.sa_family pfx (rl.rl_table idx) with
    | some (bucket', ret) =>
      ({ rl with rl_table := Function.update rl.rl_table idx bucket' }, ret)
    | none =>
      if RATELIMIT_SIZE_MAX ≤ rl.rl_table_num then
        (rl, ECONNREFUSED)
      else if allocOk = false then
        (rl, ECONNREFUSED)
      else
        ({ rl with
             rl_table := Function.update rl.rl_table idx
               (({ r_af := sa.sa_family, r_in := pfx, r_last_time := now,
                   r_tokens := TOKEN_MAX - INITIATION_COST } :
                 RatelimitEntry) :: rl.rl_table idx),
             rl_table_num := rl.rl_table_num + 1 }, 0)
  else
    (rl, ECONNREFUSED)

/-- Iterate `ratelimit_allow` for the same endpoint at the same clock
reading with a succeeding allocator, collecting the verdicts. -/
def ratelimit_allow_iter (sa : Sockaddr) (now : Int) :
    Nat → Ratelimit → Ratelimit × List Nat
  | 0, rl => (rl, [])
  | n + 1, rl =>
    let step := ratelimit_allow rl sa now true
    let rest := ratelimit_allow_iter sa now n step.1
    (rest.1, step.2 :: rest.2)

/-- Run a sequence of `ratelimit_allow` calls (endpoint, clock reading,
allocator success) against a rate limiter. -/
def ratelimit_allow_run (rl : Ratelimit) :
    List (Sockaddr × Int × Bool) → Ratelimit
  | [] => rl
  | c :: rest =>
    ratelimit_allow_run (ratelimit_allow rl c.1 c.2.1 c.2.2).1 rest

/-- `struct cookie_checker` (locks omitted from the sequential model). -/
structure CookieChecker where
  cc_mac1_key : List Nat
  cc_cookie_key : List Nat
  cc_secret_birthdate : Int
  cc_secret : List Nat
  deriving DecidableEq

/-- `cookie_checker_validate_macs(cc, cm, buf, len, busy, sa)`.
`mac1fn` / `mac2fn` are the BLAKE2s primitives as in `cookie_maker_mac`;
`cookieFor` is `cookie_checker_make_cookie` abstracted to a function of
the endpoint; `timingsafe_bcmp` over the 16-byte MACs is byte-list
equality.  The two global rate limiters are threaded through as
`rl4` / `rl6`; returns the verdict together with their updated states. -/
def cookie_checker_validate_macs
    (mac1fn : List Nat → List Nat → List Nat)
    (mac2fn : List Nat → List Nat → List Nat → List Nat)
    (cookieFor : Sockaddr → List Nat)
    (cc : CookieChecker) (cm : CookieMacs) (buf : List Nat) (busy : Int)
    (sa : Sockaddr) (rl4 rl6 : Ratelimit) (now : Int) (allocOk : Bool) :
    Nat × Ratelimit × Ratelimit :=
  let our_m1 := mac1fn buf cc.cc_mac1_key
  if our_m1 ≠ cm.mac1 then
    (EINVAL, rl4, rl6)
  else if busy ≠ 0 then
    let cookie := cookieFor sa
    let our_m2 := mac2fn buf cookie our_m1
    if our_m2 ≠ cm.mac2 then
      (EAGAIN, rl4, rl6)
    else if sa.sa_family = AF_INET then
      let res := ratelimit_allow rl4 sa now allocOk
      (res.2, res.1, rl6)
    else if sa.sa_family = AF_INET6 then
      let res := ratelimit_allow rl6 sa now allocOk
      (res.2, rl4, res.1)
    else
      (EAFNOSUPPORT, rl4, rl6)
  else
    (0, rl4, rl6)

/-! ### Concrete objects used to exercise the model -/

/-- A concrete IPv4 endpoint. -/
def saW4 : Sockaddr := { sa_family := 2, sa_addr := [127, 0, 0, 1], sa_port := 1 }

/-- A concrete rate-limiter state: constant hash, every bucket holding
the given entries, mask `RATELIMIT_SIZE - 1` as `hashinit` produces. -/
def mkRl (entries : List RatelimitEntry) (num : Nat) : Ratelimit :=
  { rl_hash := fun _ => 0, rl_table := fun _ => entries,
    rl_table_mask := 8191, rl_table_num := num }

/-- A concrete rate-limit entry for `saW4` with an empty bucket. -/
def rW1 : RatelimitEntry :=
  { r_af := 2, r_in := [127, 0, 0, 1], r_last_time := 0, r_tokens := 0 }

/-- A concrete mac1 primitive. -/
def mac1W : List Nat → List Nat → List Nat := fun _ _ => []

/-- A concrete mac2 primitive whose output is never the zero MAC. -/
def mac2W : List Nat → List Nat → List Nat → List Nat := fun _ _ _ => [1]

/-- A concrete cookie maker with no valid mac1 binding. -/
def cpW : CookieMaker :=
  { cp_mac1_key := [], cp_cookie_key := [], cp_cookie := [],
    cp_birthdate := 0, cp_mac1_valid := false, cp_mac1_last := [] }

/-- `cpW` with a valid mac1 binding. -/
def cpV : CookieMaker := { cpW with cp_mac1_valid := true }

/-- A concrete AEAD open that always succeeds. -/
def decW : List Nat → List Nat → List Nat → List Nat → Option (List Nat) :=
  fun _ _ _ _ => some [5]

/-- A concrete cookie checker. -/
def ccW : CookieChecker :=
  { cc_mac1_key := [], cc_cookie_key := [], cc_secret_birthdate := 0,
    cc_secret := [] }

/-- A concrete entry for `saW4` whose `r_last_time` lies one second in
the future of the clock reading used against it. -/
def rC8 : RatelimitEntry :=
  { r_af := 2, r_in := [127, 0, 0, 1], r_last_time := 4294967296, r_tokens := 0 }

/-- The verdicts of repeated same-instant token-bucket hits starting
from `t` tokens: allow and charge while `t ≥ INITIATION_COST`, refuse
(keeping `t`) afterwards. -/
def burst_trace (t : Nat) : Nat → List Nat
  | 0 => []
  | n + 1 =>
    if INITIATION_COST ≤ t then 0 :: burst_trace (t - INITIATION_COST) n
    else ECONNREFUSED :: burst_trace t n

/-! ### Helper lemmas about the rate limiter -/

theorem bucket_update_none (now : Int) (af : Nat) (pfx : List Nat)
    (l : List RatelimitEntry)
    (h : ∀ e ∈ l, entry_matches af pfx e = false) :
    ratelimit_bucket_update now af pfx l = none := by
  induction l with
  | nil => rfl
  | cons r rest ih =>
    have hr := h r (List.mem_cons_self r rest)
    have hrest := ih (fun e he => h e (List.mem_cons_of_mem r he))
    simp [ratelimit_bucket_update, hr, hrest]

theorem bucket_update_found (now : Int) (af : Nat) (pfx : List Nat)
    (pre post : List RatelimitEntry) (r : RatelimitEntry)
    (hpre : ∀ e ∈ pre, entry_matches af pfx e = false)
    (hr : entry_matches af pfx r = true) :
    ratelimit_bucket_update now af pfx (pre ++ r :: post) =
      some (pre ++ (entry_step now r).1 :: post, (entry_step now r).2) := by
  induction pre with
  | nil => simp [ratelimit_bucket_update, hr]
  | cons e pre ih =>
    have he := hpre e (List.mem_cons_self e pre)
    have hrec := ih (fun x hx => hpre x (List.mem_cons_of_mem e hx))
    simp [ratelimit_bucket_update, he, hrec]

theorem addDiff_of_nonneg (t : Nat) (d : Int) (hd : 0 ≤ d)
    (h : t + d.toNat < UINT64_MOD) :
    addDiff t d = t + d.toNat := by
  have h0 : 0 ≤ (t : Int) + d := by omega
  have h1 : (t : Int) + d < (UINT64_MOD : Int) := by
    have : (UINT64_MOD : Int) = ((UINT64_MOD : Nat) : Int) := by norm_cast
    omega
  rw [addDiff, Int.emod_eq_of_lt h0 h1]
  omega

theorem entry_step_of_mono (now : Int) (r : RatelimitEntry)
    (hmono : r.r_last_time ≤ now)
    (hnowrap : r.r_tokens + (now - r.r_last_time).toNat < UINT64_MOD) :
    entry_step now r =
      (let tokens := min (r.r_tokens + (now - r.r_last_time).toNat) TOKEN_MAX
       ({ r with r_last_time := now,
                 r_tokens := if INITIATION_COST ≤ tokens then
                   tokens - INITIATION_COST else tokens },
        if INITIATION_COST ≤ tokens then 0 else ECONNREFUSED)) := by
  have hd : 0 ≤ now - r.r_last_time := by omega
  have ha : addDiff r.r_tokens (now - r.r_last_time) =
      r.r_tokens + (now - r.r_last_time).toNat :=
    addDiff_of_nonneg _ _ hd hnowrap
  rw [entry_step, ha]
  have hmin : (if TOKEN_MAX < r.r_tokens + (now - r.r_last_time).toNat then
      TOKEN_MAX else r.r_tokens + (now - r.r_last_time).toNat) =
      min (r.r_tokens + (now - r.r_last_time).toNat) TOKEN_MAX := by
    rw [min_def]
    split_ifs <;> omega
  rw [hmin]
  simp only []
  split_ifs <;> rfl

/-! ### Claim C1 -/

/-- Claim C1: when `ratelimit_allow` finds an existing entry matching
the source prefix (with `cost = INITIATION_COST` and
`cap = TOKEN_MAX`), the entry's `r_last_time` is set to `now` and its
tokens become `min (tokens + (now - last_time)) cap`; if that value is
at least the cost the call allows (returns 0) and stores
`tokens - cost`, otherwise it refuses (`ECONNREFUSED`) and stores the
replenished tokens with no deduction.  Monotone-clock and 64-bit
no-overflow hypotheses make the C `uint64_t` sum coincide with the
mathematical one. -/
theorem claim_C1 (rl : Ratelimit) (sa : Sockaddr) (now : Int) (allocOk : Bool)
    (pre post : List RatelimitEntry) (r : RatelimitEntry)
    (haf : sa.sa_family = AF_INET ∨ sa.sa_family = AF_INET6)
    (hbucket : rl.rl_table (rl.rl_hash (sa_masked sa) &&& rl.rl_table_mask) =
      pre ++ r :: post)
    (hpre : ∀ e ∈ pre, entry_matches sa.sa_family (sa_masked sa) e = false)
    (hr : entry_matches sa.sa_family (sa_masked sa) r = true)
    (hmono : r.r_last_time ≤ now)
    (hnowrap : r.r_tokens + (now - r.r_last_time).toNat < UINT64_MOD) :
    ratelimit_allow rl sa now allocOk =
      (let idx := rl.rl_hash (sa_masked sa) &&& rl.rl_table_mask
       let tokens := min (r.r_tokens + (now - r.r_last_time).toNat) TOKEN_MAX
       let newTok := if INITIATION_COST ≤ tokens then
         tokens - INITIATION_COST else tokens
       let r' : RatelimitEntry := { r with r_last_time := now, r_tokens := newTok }
       let table' := Function.update rl.rl_table idx (pre ++ r' :: post)
       ({ rl with rl_table := table' },
        if INITIATION_COST ≤ tokens then 0 else ECONNREFUSED)) := by
  have hbu := bucket_update_found now sa.sa_family (sa_masked sa) pre post r hpre hr
  have hstep := entry_step_of_mono now r hmono hnowrap
  simp only [ratelimit_allow, if_pos haf, hbucket, hbu, hstep]

/-- Witness for C1: the existing entry for `saW4` (zero tokens,
`r_last_time = 0`) observed again one second later. -/
theorem claim_C1_witness :
    rW1.r_last_time ≤ SBT_1S ∧
    rW1.r_tokens + (SBT_1S - rW1.r_last_time).toNat < UINT64_MOD ∧
    ratelimit_allow (mkRl [rW1] 1) saW4 SBT_1S true =
      (let idx := (mkRl [rW1] 1).rl_hash (sa_masked saW4) &&&
        (mkRl [rW1] 1).rl_table_mask
       let tokens := min (rW1.r_tokens + (SBT_1S - rW1.r_last_time).toNat)
         TOKEN_MAX
       let newTok := if INITIATION_COST ≤ tokens then
         tokens - INITIATION_COST else tokens
       let r' : RatelimitEntry := { rW1 with r_last_time := SBT_1S, r_tokens := newTok }
       let table' := Function.update (mkRl [rW1] 1).rl_table idx ([] ++ r' :: [])
       ({ mkRl [rW1] 1 with rl_table := table' },
        if INITIATION_COST ≤ tokens then 0 else ECONNREFUSED)) :=
  ⟨by decide, by decide,
   claim_C1 (mkRl [rW1] 1) saW4 SBT_1S true [] [] rW1 (Or.inl rfl) rfl
     (by simp) (by decide) (by decide) (by decide)⟩

/-! ### Claim C2 -/

theorem bucket_update_verdict (now : Int) (af : Nat) (pfx : List Nat)
    (l l' : List RatelimitEntry) (ret : Nat)
    (h : ratelimit_bucket_update now af pfx l = some (l', ret)) :
    ret = 0 ∨ ret = ECONNREFUSED := by
  induction l generalizing l' ret with
  | nil => simp [ratelimit_bucket_update] at h
  | cons r rest ih =>
    rw [ratelimit_bucket_update] at h
    by_cases hm : entry_matches af pfx r
    · rw [if_pos hm] at h
      have h2 : (entry_step now r).2 = ret := congrArg Prod.snd (Option.some.inj h)
      rw [← h2]
      simp only [entry_step]
      split_ifs <;> simp
    · rw [if_neg hm] at h
      cases hrec : ratelimit_bucket_update now af pfx rest with
      | none => rw [hrec] at h; simp at h
      | some p =>
        obtain ⟨p1, p2⟩ := p
        rw [hrec] at h
        simp only [] at h
        have h2 : p2 = ret := congrArg Prod.snd (Option.some.inj h)
        exact h2 ▸ ih p1 p2 hrec

theorem ratelimit_allow_verdict (rl : Ratelimit) (sa : Sockaddr) (now : Int)
    (allocOk : Bool) :
    (ratelimit_allow rl sa now allocOk).2 = 0 ∨
    (ratelimit_allow rl sa now allocOk).2 = ECONNREFUSED := by
  by_cases hf : sa.sa_family = AF_INET ∨ sa.sa_family = AF_INET6
  · rw [ratelimit_allow, if_pos hf]
    simp only []
    split
    · next bucket' ret heq => simpa using bucket_update_verdict _ _ _ _ _ _ heq
    · split_ifs <;> simp
  · rw [ratelimit_allow, if_neg hf]
    simp

/-- Claim C2: `cookie_checker_validate_macs` returns `EINVAL` on a mac1
mismatch; `0` when mac1 matches and `busy = 0`; `EAGAIN` when busy and
the recomputed mac2 (keyed by the cookie for `sa`) mismatches; and
otherwise the rate limiter's verdict (0 or `ECONNREFUSED`) for `sa`'s
family, with `EAFNOSUPPORT` for any other family. -/
theorem claim_C2 (mac1fn : List Nat → List Nat → List Nat)
    (mac2fn : List Nat → List Nat → List Nat → List Nat)
    (cookieFor : Sockaddr → List Nat)
    (cc : CookieChecker) (cm : CookieMacs) (buf : List Nat) (busy : Int)
    (sa : Sockaddr) (rl4 rl6 : Ratelimit) (now : Int) (allocOk : Bool) :
    (mac1fn buf cc.cc_mac1_key ≠ cm.mac1 →
      cookie_checker_validate_macs mac1fn mac2fn cookieFor cc cm buf busy sa
        rl4 rl6 now allocOk = (EINVAL, rl4, rl6)) ∧
    (mac1fn buf cc.cc_mac1_key = cm.mac1 → busy = 0 →
      cookie_checker_validate_macs mac1fn mac2fn cookieFor cc cm buf busy sa
        rl4 rl6 now allocOk = (0, rl4, rl6)) ∧
    (mac1fn buf cc.cc_mac1_key = cm.mac1 → busy ≠ 0 →
      mac2fn buf (cookieFor sa) (mac1fn buf cc.cc_mac1_key) ≠ cm.mac2 →
      cookie_checker_validate_macs mac1fn mac2fn cookieFor cc cm buf busy sa
        rl4 rl6 now allocOk = (EAGAIN, rl4, rl6)) ∧
    (mac1fn buf cc.cc_mac1_key = cm.mac1 → busy ≠ 0 →
      mac2fn buf (cookieFor sa) (mac1fn buf cc.cc_mac1_key) = cm.mac2 →
      sa.sa_family = AF_INET →
      cookie_checker_validate_macs mac1fn mac2fn cookieFor cc cm buf busy sa
        rl4 rl6 now allocOk =
        ((ratelimit_allow rl4 sa now allocOk).2,
         (ratelimit_allow rl4 sa now allocOk).1, rl6) ∧
      ((ratelimit_allow rl4 sa now allocOk).2 = 0 ∨
       (ratelimit_allow rl4 sa now allocOk).2 = ECONNREFUSED)) ∧
    (mac1fn buf cc.cc_mac1_key = cm.mac1 → busy ≠ 0 →
      mac2fn buf (cookieFor sa) (mac1fn buf cc.cc_mac1_key) = cm.mac2 →
      sa.sa_family = AF_INET6 →
      cookie_checker_validate_macs mac1fn mac2fn cookieFor cc cm buf busy sa
        rl4 rl6 now allocOk =
        ((ratelimit_allow rl6 sa now allocOk).2, rl4,
         (ratelimit_allow rl6 sa now allocOk).1) ∧
      ((ratelimit_allow rl6 sa now allocOk).2 = 0 ∨
       (ratelimit_allow rl6 sa now allocOk).2 = ECONNREFUSED)) ∧
    (mac1fn buf cc.cc_mac1_key = cm.mac1 → busy ≠ 0 →
      mac2fn buf (cookieFor sa) (mac1fn buf cc.cc_mac1_key) = cm.mac2 →
      sa.sa_family ≠ AF_INET → sa.sa_family ≠ AF_INET6 →
      cookie_checker_validate_macs mac1fn mac2fn cookieFor cc cm buf busy sa
        rl4 rl6 now allocOk = (EAFNOSUPPORT, rl4, rl6)) := by
  refine ⟨?_, ?_, ?_, ?_, ?_, ?_⟩
  · intro h1
    simp [cookie_checker_validate_macs, h1]
  · intro h1 hb
    simp [cookie_checker_validate_macs, h1, hb]
  · intro h1 hb h2
    rw [h1] at h2
    simp [cookie_checker_validate_macs, h1, hb, h2]
  · intro h1 hb h2 hf
    rw [h1] at h2
    exact ⟨by simp [cookie_checker_validate_macs, h1, hb, h2, hf],
      ratelimit_allow_verdict rl4 sa now allocOk⟩
  · intro h1 hb h2 hf
    rw [h1] at h2
    exact ⟨by simp [cookie_checker_validate_macs, h1, hb, h2, hf, AF_INET, AF_INET6],
      ratelimit_allow_verdict rl6 sa now allocOk⟩
  · intro h1 hb h2 hf4 hf6
    rw [h1] at h2
    simp [cookie_checker_validate_macs, h1, hb, h2, hf4, hf6]

/-- Witness for C2: matching mac1 with `busy = 0` returns Ok and leaves
both rate limiters untouched. -/
theorem claim_C2_witness :
    mac1W [] ccW.cc_mac1_key = (CookieMacs.mk [] []).mac1 ∧
    cookie_checker_validate_macs mac1W mac2W (fun _ => []) ccW
      (CookieMacs.mk [] []) [] 0 saW4 (mkRl [] 0) (mkRl [] 0) 0 true =
      (0, mkRl [] 0, mkRl [] 0) :=
  ⟨rfl,
   (claim_C2 mac1W mac2W (fun _ => []) ccW (CookieMacs.mk [] []) [] 0 saW4
     (mkRl [] 0) (mkRl [] 0) 0 true).2.1 rfl rfl⟩

/-! ### Claim C5 -/

/-- Counterexample to C5 as stated: at `now = cp_birthdate + 115 * SBT_1S`
exactly, `now - cp_birthdate < 115 s` is false, yet `cookie_maker_mac`
still computes a (non-zero) mac2, because `cookie_timer_expired` uses a
strict `>` and so treats an age of exactly 115 s as not expired. -/
theorem claim_C5_counterexample :
    ¬ (115 * SBT_1S - cpW.cp_birthdate <
        ((COOKIE_SECRET_MAX_AGE - COOKIE_SECRET_LATENCY : Nat) : Int) * SBT_1S) ∧
    (cookie_maker_mac mac1W mac2W cpW [] (115 * SBT_1S)).2.mac2 ≠
      List.replicate COOKIE_MAC_SIZE 0 := by
  constructor
  · decide
  · decide

/-- Claim C5 amended: `cookie_maker_mac` computes `cm.mac2` as
`mac2(buf, cookie)` exactly when
`now - cp_birthdate ≤ (SECRET_MAX_AGE - SECRET_LATENCY) * SBT_1S`
(at most — not strictly less than — 115 seconds since the cookie was
received), and zeroes `cm.mac2` otherwise. -/
theorem claim_C5_amended (mac1fn : List Nat → List Nat → List Nat)
    (mac2fn : List Nat → List Nat → List Nat → List Nat)
    (cp : CookieMaker) (buf : List Nat) (now : Int) :
    (cookie_maker_mac mac1fn mac2fn cp buf now).2.mac2 =
      if now - cp.cp_birthdate ≤
          ((COOKIE_SECRET_MAX_AGE - COOKIE_SECRET_LATENCY : Nat) : Int) * SBT_1S then
        mac2fn buf cp.cp_cookie (mac1fn buf cp.cp_mac1_key)
      else
        List.replicate COOKIE_MAC_SIZE 0 := by
  rw [cookie_maker_mac]
  simp only [cookie_timer_expired, nstosbt, ETIMEDOUT]
  norm_num
  rw [add_comm cp.cp_birthdate]

/-! ### Claim C6 -/

/-- Claim C6: a successful `cookie_maker_consume_payload` clears
`cp_mac1_valid`, so a second call on the resulting maker — without an
intervening `cookie_maker_mac` — returns `ETIMEDOUT` and leaves the
whole maker state (in particular the stored cookie and its birthdate)
unchanged, whatever payload and AEAD are presented to it. -/
theorem claim_C6
    (decryptFn d2 : List Nat → List Nat → List Nat → List Nat → Option (List Nat))
    (cp : CookieMaker) (nonce ecookie n2 e2 : List Nat) (now now2 : Int)
    (hok : (cookie_maker_consume_payload decryptFn cp nonce ecookie now).2 = 0) :
    (cookie_maker_consume_payload decryptFn cp nonce ecookie now).1.cp_mac1_valid
      = false ∧
    cookie_maker_consume_payload d2
        (cookie_maker_consume_payload decryptFn cp nonce ecookie now).1 n2 e2 now2 =
      ((cookie_maker_consume_payload decryptFn cp nonce ecookie now).1,
       ETIMEDOUT) := by
  by_cases hv : cp.cp_mac1_valid = false
  · exfalso
    simp [cookie_maker_consume_payload, hv, ETIMEDOUT] at hok
  · cases hd : decryptFn ecookie cp.cp_mac1_last nonce cp.cp_cookie_key with
    | none =>
      exfalso
      simp [cookie_maker_consume_payload, hv, hd, EINVAL] at hok
    | some c =>
      constructor
      · simp [cookie_maker_consume_payload, hv, hd]
      · simp [cookie_maker_consume_payload, hv, hd]

/-- Witness for C6: a successful consumption followed by a second
attempt, which is refused with `ETIMEDOUT` and changes nothing. -/
theorem claim_C6_witness :
    (cookie_maker_consume_payload decW cpV [] [] 7).2 = 0 ∧
    ((cookie_maker_consume_payload decW cpV [] [] 7).1.cp_mac1_valid = false ∧
     cookie_maker_consume_payload decW
         (cookie_maker_consume_payload decW cpV [] [] 7).1 [] [] 8 =
       ((cookie_maker_consume_payload decW cpV [] [] 7).1, ETIMEDOUT)) :=
  ⟨by decide, claim_C6 decW decW cpV [] [] [] [] 7 8 (by decide)⟩

/-! ### Claim C10 -/

/-- Claim C10: `cookie_maker_consume_payload` is atomic on failure —
whenever it returns `ETIMEDOUT` (mac1 not valid) or `EINVAL` (AEAD tag
mismatch) the maker state, and so `cp_cookie`, `cp_birthdate` and
`cp_mac1_valid`, is exactly as before the call. -/
theorem claim_C10
    (decryptFn : List Nat → List Nat → List Nat → List Nat → Option (List Nat))
    (cp : CookieMaker) (nonce ecookie : List Nat) (now : Int)
    (hfail : (cookie_maker_consume_payload decryptFn cp nonce ecookie now).2
        = ETIMEDOUT ∨
      (cookie_maker_consume_payload decryptFn cp nonce ecookie now).2 = EINVAL) :
    (cookie_maker_consume_payload decryptFn cp nonce ecookie now).1 = cp := by
  by_cases hv : cp.cp_mac1_valid = false
  · simp [cookie_maker_consume_payload, hv]
  · cases hd : decryptFn ecookie cp.cp_mac1_last nonce cp.cp_cookie_key with
    | none => simp [cookie_maker_consume_payload, hv, hd]
    | some c =>
      exfalso
      simp [cookie_maker_consume_payload, hv, hd, ETIMEDOUT, EINVAL] at hfail

/-- Witness for C10: consuming with no valid mac1 binding fails with
`ETIMEDOUT` and leaves the maker untouched. -/
theorem claim_C10_witness :
    ((cookie_maker_consume_payload decW cpW [] [] 3).2 = ETIMEDOUT ∨
     (cookie_maker_consume_payload decW cpW [] [] 3).2 = EINVAL) ∧
    (cookie_maker_consume_payload decW cpW [] [] 3).1 = cpW :=
  ⟨Or.inl (by decide), claim_C10 decW cpW [] [] 3 (Or.inl (by decide))⟩

/-! ### Claim C3 -/

theorem ratelimit_allow_insert (rl : Ratelimit) (sa : Sockaddr) (now : Int)
    (haf : sa.sa_family = AF_INET ∨ sa.sa_family = AF_INET6)
    (hnm : ∀ e ∈ rl.rl_table (rl.rl_hash (sa_masked sa) &&& rl.rl_table_mask),
      entry_matches sa.sa_family (sa_masked sa) e = false)
    (hnum : rl.rl_table_num < RATELIMIT_SIZE_MAX) :
    ratelimit_allow rl sa now true =
      (let idx := rl.rl_hash (sa_masked sa) &&& rl.rl_table_mask
       let newE : RatelimitEntry := { r_af := sa.sa_family, r_in := sa_masked sa, r_last_time := now, r_tokens := TOKEN_MAX - INITIATION_COST }
       ({ rl with rl_table := Function.update rl.rl_table idx (newE :: rl.rl_table idx), rl_table_num := rl.rl_table_num + 1 }, 0)) := by
  rw [ratelimit_allow, if_pos haf]
  simp only []
  rw [bucket_update_none now sa.sa_family (sa_masked sa) _ hnm]
  simp only []
  rw [if_neg (by omega), if_neg (by simp)]

theorem ratelimit_allow_head (rl : Ratelimit) (sa : Sockaddr) (now : Int)
    (b : Bool) (r : RatelimitEntry) (rest : List RatelimitEntry)
    (haf : sa.sa_family = AF_INET ∨ sa.sa_family = AF_INET6)
    (hbucket : rl.rl_table (rl.rl_hash (sa_masked sa) &&& rl.rl_table_mask) =
      r :: rest)
    (hr : entry_matches sa.sa_family (sa_masked sa) r = true)
    (hlast : r.r_last_time = now)
    (htok : r.r_tokens ≤ TOKEN_MAX) :
    ratelimit_allow rl sa now b =
      (let idx := rl.rl_hash (sa_masked sa) &&& rl.rl_table_mask
       let newTok := if INITIATION_COST ≤ r.r_tokens then r.r_tokens - INITIATION_COST else r.r_tokens
       let r' : RatelimitEntry := { r with r_last_time := now, r_tokens := newTok }
       ({ rl with rl_table := Function.update rl.rl_table idx (r' :: rest) },
        if INITIATION_COST ≤ r.r_tokens then 0 else ECONNREFUSED)) := by
  have hTM : TOKEN_MAX = 1073741820 := by
    norm_num [TOKEN_MAX, INITIATION_COST, INITIATIONS_PER_SECOND,
      INITIATIONS_BURSTABLE]
  have h0 : (now - r.r_last_time).toNat = 0 := by rw [hlast]; simp
  have hnowrap : r.r_tokens + (now - r.r_last_time).toNat < UINT64_MOD := by
    have hU : UINT64_MOD = 18446744073709551616 := rfl
    omega
  have hstep := entry_step_of_mono now r (le_of_eq hlast) hnowrap
  simp only [] at hstep
  rw [h0, Nat.add_zero, min_eq_left htok] at hstep
  have hbu := bucket_update_found now sa.sa_family (sa_masked sa) [] rest r
    (by simp) hr
  rw [List.nil_append, List.nil_append] at hbu
  rw [ratelimit_allow, if_pos haf]
  simp only []
  rw [hbucket, hbu, hstep]

theorem ratelimit_allow_iter_head (sa : Sockaddr) (now : Int) (k : Nat) :
    ∀ (rl : Ratelimit) (r : RatelimitEntry) (rest : List RatelimitEntry),
    (sa.sa_family = AF_INET ∨ sa.sa_family = AF_INET6) →
    rl.rl_table (rl.rl_hash (sa_masked sa) &&& rl.rl_table_mask) = r :: rest →
    entry_matches sa.sa_family (sa_masked sa) r = true →
    r.r_last_time = now → r.r_tokens ≤ TOKEN_MAX →
    (ratelimit_allow_iter sa now k rl).2 = burst_trace r.r_tokens k := by
  induction k with
  | zero => intro rl r rest _ _ _ _ _; rfl
  | succ n ih =>
    intro rl r rest haf hbucket hr hlast htok
    have hstep := ratelimit_allow_head rl sa now true r rest haf hbucket hr
      hlast htok
    simp only [] at hstep
    rw [ratelimit_allow_iter]
    simp only [hstep]
    set t' := if INITIATION_COST ≤ r.r_tokens then r.r_tokens - INITIATION_COST else r.r_tokens with ht'
    set r' : RatelimitEntry := { r with r_last_time := now, r_tokens := t' } with hr2
    set rl' : Ratelimit := { rl with rl_table := Function.update rl.rl_table (rl.rl_hash (sa_masked sa) &&& rl.rl_table_mask) (r' :: rest) } with hrl2
    have hb' : rl'.rl_table (rl'.rl_hash (sa_masked sa) &&& rl'.rl_table_mask) = r' :: rest := by
      rw [hrl2]
      exact Function.update_same _ _ _
    have hm' : entry_matches sa.sa_family (sa_masked sa) r' = true := by
      rw [hr2]
      simpa [entry_matches] using hr
    have htok' : r'.r_tokens ≤ TOKEN_MAX := by
      show t' ≤ TOKEN_MAX
      rw [ht']
      split_ifs <;> omega
    have hrec := ih rl' r' rest haf hb' hm' rfl htok'
    rw [hrec]
    have hrt : r'.r_tokens = t' := rfl
    rw [hrt, ht']
    rcases le_or_lt INITIATION_COST r.r_tokens with hc | hc
    · rw [if_pos hc, if_pos hc, burst_trace, if_pos hc]
    · rw [if_neg (not_le.mpr hc), if_neg (not_le.mpr hc), burst_trace,
        if_neg (not_le.mpr hc)]

/-- Claim C3: a freshly inserted rate-limit entry starts with
`r_tokens = TOKEN_MAX - INITIATION_COST` and `r_last_time = now` (the
inserting initiation is charged and allowed), and consequently, for a
previously unseen prefix, `INITIATIONS_BURSTABLE` consecutive
`ratelimit_allow` calls at the same clock instant all return 0 and the
`(INITIATIONS_BURSTABLE + 1)`-th returns `ECONNREFUSED`. -/
theorem claim_C3 (rl : Ratelimit) (sa : Sockaddr) (now : Int)
    (haf : sa.sa_family = AF_INET ∨ sa.sa_family = AF_INET6)
    (hnm : ∀ e ∈ rl.rl_table (rl.rl_hash (sa_masked sa) &&& rl.rl_table_mask),
      entry_matches sa.sa_family (sa_masked sa) e = false)
    (hnum : rl.rl_table_num < RATELIMIT_SIZE_MAX) :
    (ratelimit_allow rl sa now true).2 = 0 ∧
    (ratelimit_allow rl sa now true).1.rl_table (rl.rl_hash (sa_masked sa) &&& rl.rl_table_mask) =
      ({ r_af := sa.sa_family, r_in := sa_masked sa, r_last_time := now, r_tokens := TOKEN_MAX - INITIATION_COST } : RatelimitEntry) :: rl.rl_table (rl.rl_hash (sa_masked sa) &&& rl.rl_table_mask) ∧
    (ratelimit_allow_iter sa now (INITIATIONS_BURSTABLE + 1) rl).2 =
      List.replicate INITIATIONS_BURSTABLE 0 ++ [ECONNREFUSED] := by
  have hins := ratelimit_allow_insert rl sa now haf hnm hnum
  simp only [] at hins
  refine ⟨by rw [hins], ?_, ?_⟩
  · rw [hins]
    exact Function.update_same _ _ _
  · rw [ratelimit_allow_iter]
    simp only [hins]
    set newE : RatelimitEntry := { r_af := sa.sa_family, r_in := sa_masked sa, r_last_time := now, r_tokens := TOKEN_MAX - INITIATION_COST } with hne
    set S1 : Ratelimit := { rl with rl_table := Function.update rl.rl_table (rl.rl_hash (sa_masked sa) &&& rl.rl_table_mask) (newE :: rl.rl_table (rl.rl_hash (sa_masked sa) &&& rl.rl_table_mask)), rl_table_num := rl.rl_table_num + 1 } with hS1
    have hb : S1.rl_table (S1.rl_hash (sa_masked sa) &&& S1.rl_table_mask) =
        newE :: rl.rl_table (rl.rl_hash (sa_masked sa) &&& rl.rl_table_mask) := by
      rw [hS1]
      exact Function.update_same _ _ _
    have hm : entry_matches sa.sa_family (sa_masked sa) newE = true := by
      rw [hne]
      simp [entry_matches]
    have htok : newE.r_tokens ≤ TOKEN_MAX := by
      rw [hne]
      norm_num [TOKEN_MAX, INITIATION_COST, INITIATIONS_PER_SECOND,
        INITIATIONS_BURSTABLE]
    have hrec := ratelimit_allow_iter_head sa now INITIATIONS_BURSTABLE S1 newE
      (rl.rl_table (rl.rl_hash (sa_masked sa) &&& rl.rl_table_mask)) haf hb hm
      rfl htok
    rw [hrec, hne]
    show 0 :: burst_trace (TOKEN_MAX - INITIATION_COST) INITIATIONS_BURSTABLE =
      List.replicate INITIATIONS_BURSTABLE 0 ++ [ECONNREFUSED]
    decide

/-- Witness for C3: the very first endpoint against an empty rate
limiter bursts `INITIATIONS_BURSTABLE` times and is then refused. -/
theorem claim_C3_witness :
    (mkRl [] 0).rl_table_num < RATELIMIT_SIZE_MAX ∧
    ((ratelimit_allow (mkRl [] 0) saW4 0 true).2 = 0 ∧
     (ratelimit_allow (mkRl [] 0) saW4 0 true).1.rl_table ((mkRl [] 0).rl_hash (sa_masked saW4) &&& (mkRl [] 0).rl_table_mask) =
       ({ r_af := saW4.sa_family, r_in := sa_masked saW4, r_last_time := 0, r_tokens := TOKEN_MAX - INITIATION_COST } : RatelimitEntry) :: (mkRl [] 0).rl_table ((mkRl [] 0).rl_hash (sa_masked saW4) &&& (mkRl [] 0).rl_table_mask) ∧
     (ratelimit_allow_iter saW4 0 (INITIATIONS_BURSTABLE + 1) (mkRl [] 0)).2 =
       List.replicate INITIATIONS_BURSTABLE 0 ++ [ECONNREFUSED]) :=
  ⟨by decide, claim_C3 (mkRl [] 0) saW4 0 (Or.inl rfl) (by simp [mkRl])
    (by decide)⟩

/-! ### Claim C4 -/

theorem ratelimit_allow_num_le (rl : Ratelimit) (sa : Sockaddr) (now : Int)
    (b : Bool) (h : rl.rl_table_num ≤ RATELIMIT_SIZE_MAX) :
    (ratelimit_allow rl sa now b).1.rl_table_num ≤ RATELIMIT_SIZE_MAX := by
  by_cases hf : sa.sa_family = AF_INET ∨ sa.sa_family = AF_INET6
  · rw [ratelimit_allow, if_pos hf]
    simp only []
    split
    · exact h
    · split_ifs with h1 h2
      · exact h
      · exact h
      · show rl.rl_table_num + 1 ≤ RATELIMIT_SIZE_MAX
        omega
  · rw [ratelimit_allow, if_neg hf]
    exact h

theorem ratelimit_allow_run_num_le (calls : List (Sockaddr × Int × Bool)) :
    ∀ rl : Ratelimit, rl.rl_table_num ≤ RATELIMIT_SIZE_MAX →
    (ratelimit_allow_run rl calls).rl_table_num ≤ RATELIMIT_SIZE_MAX := by
  induction calls with
  | nil => intro rl h; exact h
  | cons c rest ih =>
    intro rl h
    rw [ratelimit_allow_run]
    exact ih _ (ratelimit_allow_num_le rl c.1 c.2.1 c.2.2 h)

/-- Claim C4: across any sequence of `ratelimit_allow` calls the live
entry count never exceeds `RATELIMIT_SIZE_MAX`; a call for a prefix
with no matching entry while the count is at (or beyond) the cap
returns `ECONNREFUSED` leaving the rate limiter — table and count —
completely unchanged, and a call for an unseen prefix whose allocation
fails does the same (fail-closed). -/
theorem claim_C4 :
    (∀ (rl : Ratelimit) (calls : List (Sockaddr × Int × Bool)),
      rl.rl_table_num ≤ RATELIMIT_SIZE_MAX →
      (ratelimit_allow_run rl calls).rl_table_num ≤ RATELIMIT_SIZE_MAX) ∧
    (∀ (rl : Ratelimit) (sa : Sockaddr) (now : Int) (b : Bool),
      (∀ e ∈ rl.rl_table (rl.rl_hash (sa_masked sa) &&& rl.rl_table_mask),
        entry_matches sa.sa_family (sa_masked sa) e = false) →
      RATELIMIT_SIZE_MAX ≤ rl.rl_table_num →
      ratelimit_allow rl sa now b = (rl, ECONNREFUSED)) ∧
    (∀ (rl : Ratelimit) (sa : Sockaddr) (now : Int),
      (∀ e ∈ rl.rl_table (rl.rl_hash (sa_masked sa) &&& rl.rl_table_mask),
        entry_matches sa.sa_family (sa_masked sa) e = false) →
      ratelimit_allow rl sa now false = (rl, ECONNREFUSED)) := by
  refine ⟨fun rl calls h => ratelimit_allow_run_num_le calls rl h, ?_, ?_⟩
  · intro rl sa now b hnm hcap
    by_cases hf : sa.sa_family = AF_INET ∨ sa.sa_family = AF_INET6
    · rw [ratelimit_allow, if_pos hf]
      simp only []
      rw [bucket_update_none now sa.sa_family (sa_masked sa) _ hnm]
      simp only []
      rw [if_pos hcap]
    · rw [ratelimit_allow, if_neg hf]
  · intro rl sa now hnm
    by_cases hf : sa.sa_family = AF_INET ∨ sa.sa_family = AF_INET6
    · rw [ratelimit_allow, if_pos hf]
      simp only []
      rw [bucket_update_none now sa.sa_family (sa_masked sa) _ hnm]
      simp only []
      split_ifs
      · rfl
      · rfl
    · rw [ratelimit_allow, if_neg hf]

/-- Witness for C4: a run keeps the count below the cap; a full table
refuses an unseen endpoint unchanged; a failed allocation refuses an
unseen endpoint unchanged. -/
theorem claim_C4_witness :
    (ratelimit_allow_run (mkRl [] 0) [(saW4, 0, true)]).rl_table_num ≤
      RATELIMIT_SIZE_MAX ∧
    ratelimit_allow (mkRl [] RATELIMIT_SIZE_MAX) saW4 0 true =
      (mkRl [] RATELIMIT_SIZE_MAX, ECONNREFUSED) ∧
    ratelimit_allow (mkRl [] 0) saW4 0 false = (mkRl [] 0, ECONNREFUSED) :=
  ⟨(claim_C4).1 (mkRl [] 0) [(saW4, 0, true)] (by decide),
   (claim_C4).2.1 (mkRl [] RATELIMIT_SIZE_MAX) saW4 0 true (by simp [mkRl])
     (by decide),
   (claim_C4).2.2 (mkRl [] 0) saW4 0 (by simp [mkRl])⟩

/-! ### Claim C7 -/

theorem entry_step_key (now : Int) (r : RatelimitEntry) :
    (entry_step now r).1.r_af = r.r_af ∧ (entry_step now r).1.r_in = r.r_in := by
  rw [entry_step]
  split_ifs <;> exact ⟨rfl, rfl⟩

theorem bucket_update_filter (now : Int) (af : Nat) (pfx : List Nat)
    (p : RatelimitEntry → Bool)
    (hp : ∀ r : RatelimitEntry, entry_matches af pfx r = true → p r = false) :
    ∀ (l l' : List RatelimitEntry) (ret : Nat),
    ratelimit_bucket_update now af pfx l = some (l', ret) →
    l'.filter p = l.filter p := by
  intro l
  induction l with
  | nil => intro l' ret h; simp [ratelimit_bucket_update] at h
  | cons r rest ih =>
    intro l' ret h
    rw [ratelimit_bucket_update] at h
    by_cases hm : entry_matches af pfx r
    · rw [if_pos hm] at h
      have hl : (entry_step now r).1 :: rest = l' :=
        congrArg Prod.fst (Option.some.inj h)
      have hpr : p r = false := hp r hm
      have hpr' : p (entry_step now r).1 = false := by
        apply hp
        have h1 := (entry_step_key now r).1
        have h2 := (entry_step_key now r).2
        simp only [entry_matches] at hm ⊢
        rw [h1, h2]
        exact hm
      rw [← hl, List.filter_cons, List.filter_cons, hpr, hpr']
      simp
    · rw [if_neg hm] at h
      cases hrec : ratelimit_bucket_update now af pfx rest with
      | none => rw [hrec] at h; simp at h
      | some q =>
        obtain ⟨q1, q2⟩ := q
        rw [hrec] at h
        simp only [] at h
        have hl : r :: q1 = l' := congrArg Prod.fst (Option.some.inj h)
        rw [← hl, List.filter_cons, List.filter_cons, ih q1 q2 hrec]

/-- Claim C7: rate limiting keys on the address prefix only.  Two
IPv6 endpoints agreeing on their first 8 address bytes are completely
interchangeable for `ratelimit_allow` — same entry, same shared token
budget, whatever their low 64 bits or ports — while a call for one
IPv4 address leaves every entry matching a different IPv4 address (its
separate budget) untouched. -/
theorem claim_C7 :
    (∀ (rl : Ratelimit) (sa1 sa2 : Sockaddr) (now : Int) (b : Bool),
      sa1.sa_family = AF_INET6 → sa2.sa_family = AF_INET6 →
      sa1.sa_addr.take IPV6_MASK_SIZE = sa2.sa_addr.take IPV6_MASK_SIZE →
      ratelimit_allow rl sa1 now b = ratelimit_allow rl sa2 now b) ∧
    (∀ (rl : Ratelimit) (sa1 sa2 : Sockaddr) (now : Int) (b : Bool) (i : Nat),
      sa1.sa_family = AF_INET → sa2.sa_family = AF_INET →
      sa1.sa_addr.take IPV4_MASK_SIZE ≠ sa2.sa_addr.take IPV4_MASK_SIZE →
      ((ratelimit_allow rl sa1 now b).1.rl_table i).filter
          (entry_matches sa2.sa_family (sa_masked sa2)) =
        (rl.rl_table i).filter
          (entry_matches sa2.sa_family (sa_masked sa2))) := by
  constructor
  · intro rl sa1 sa2 now b h1 h2 h3
    have hm1 : sa_masked sa1 = sa_masked sa2 := by
      rw [sa_masked, sa_masked, mask_size, mask_size, h1, h2]
      simpa [AF_INET, AF_INET6] using h3
    rw [ratelimit_allow, ratelimit_allow, h1, h2, hm1]
  · intro rl sa1 sa2 now b i h1 h2 h3
    have hpfx : sa_masked sa1 ≠ sa_masked sa2 := by
      rw [sa_masked, sa_masked, mask_size, mask_size, h1, h2]
      simpa [AF_INET] using h3
    have hp : ∀ r : RatelimitEntry,
        entry_matches sa1.sa_family (sa_masked sa1) r = true →
        entry_matches sa2.sa_family (sa_masked sa2) r = false := by
      intro r hr
      have hin : r.r_in = sa_masked sa1 := by
        simp only [entry_matches, Bool.and_eq_true, decide_eq_true_eq] at hr
        exact hr.2
      simp only [entry_matches]
      rw [hin]
      simp [hpfx]
    rw [ratelimit_allow, if_pos (Or.inl h1)]
    simp only []
    split
    · next bucket' ret heq =>
      dsimp only
      by_cases hi : i = rl.rl_hash (sa_masked sa1) &&& rl.rl_table_mask
      · subst hi
        rw [Function.update_same]
        exact bucket_update_filter now sa1.sa_family (sa_masked sa1) _ hp _
          bucket' ret heq
      · rw [Function.update_noteq hi]
    · split_ifs with hc1 hc2
      · rfl
      · rfl
      · dsimp only
        by_cases hi : i = rl.rl_hash (sa_masked sa1) &&& rl.rl_table_mask
        · subst hi
          rw [Function.update_same, List.filter_cons]
          have hnew : entry_matches sa2.sa_family (sa_masked sa2)
              ({ r_af := sa1.sa_family, r_in := sa_masked sa1,
                 r_last_time := now,
                 r_tokens := TOKEN_MAX - INITIATION_COST } : RatelimitEntry) =
              false := by
            apply hp
            simp [entry_matches]
          rw [hnew]
          simp
        · rw [Function.update_noteq hi]

/-- Witness for C7: two IPv6 endpoints sharing a /64 behave
identically, and an IPv4 call does not touch the entry of a different
IPv4 address. -/
theorem claim_C7_witness :
    ratelimit_allow (mkRl [] 0)
        ({ sa_family := 28, sa_addr := [32, 1, 13, 184, 0, 0, 0, 0, 0, 0, 0, 0, 0, 0, 0, 1], sa_port := 1 } : Sockaddr) 0 true =
      ratelimit_allow (mkRl [] 0)
        ({ sa_family := 28, sa_addr := [32, 1, 13, 184, 0, 0, 0, 0, 255, 255, 255, 255, 255, 255, 255, 255], sa_port := 9 } : Sockaddr) 0 true ∧
    ((ratelimit_allow (mkRl [rW1] 1)
        ({ sa_family := 2, sa_addr := [10, 0, 0, 2], sa_port := 7 } : Sockaddr) 0 true).1.rl_table 0).filter
        (entry_matches saW4.sa_family (sa_masked saW4)) =
      ((mkRl [rW1] 1).rl_table 0).filter
        (entry_matches saW4.sa_family (sa_masked saW4)) :=
  ⟨(claim_C7).1 (mkRl [] 0) _ _ 0 true rfl rfl rfl,
   (claim_C7).2 (mkRl [rW1] 1) _ saW4 0 true 0 rfl rfl (by decide)⟩

/-! ### Claim C8 -/

/-- Counterexample to C8 as stated: `ratelimit_allow` does not clamp
`diff = now - r_last_time` at zero.  With an entry holding 0 tokens and
`r_last_time` one second ahead of `now`, the unsigned 64-bit sum
`r_tokens + diff` wraps around, is capped at `TOKEN_MAX`, and the call
is allowed, storing `TOKEN_MAX - INITIATION_COST` tokens — far more
than the 0 tokens a `dt = 0` update would leave. -/
theorem claim_C8_counterexample :
    (0 : Int) < rC8.r_last_time ∧
    (ratelimit_allow (mkRl [rC8] 1) saW4 0 true).2 = 0 ∧
    ((ratelimit_allow (mkRl [rC8] 1) saW4 0 true).1.rl_table 0).head? =
      some ({ r_af := 2, r_in := [127, 0, 0, 1], r_last_time := 0, r_tokens := TOKEN_MAX - INITIATION_COST } : RatelimitEntry) ∧
    rC8.r_tokens < TOKEN_MAX - INITIATION_COST := by
  refine ⟨by decide, by decide, by decide, by decide⟩

theorem entry_step_backward (now : Int) (r : RatelimitEntry)
    (hwrap : (r.r_tokens : Int) + (now - r.r_last_time) < 0)
    (hbound : r.r_last_time ≤ now + 9223372036854775808) :
    entry_step now r =
      ({ r with r_last_time := now, r_tokens := TOKEN_MAX - INITIATION_COST }, 0) := by
  have hTM : TOKEN_MAX = 1073741820 := by
    norm_num [TOKEN_MAX, INITIATION_COST, INITIATIONS_PER_SECOND,
      INITIATIONS_BURSTABLE]
  have hU : (UINT64_MOD : Int) = 18446744073709551616 := by
    norm_num [UINT64_MOD]
  have ha : addDiff r.r_tokens (now - r.r_last_time) =
      ((r.r_tokens : Int) + (now - r.r_last_time) + 18446744073709551616).toNat := by
    rw [addDiff, hU]
    omega
  have hgt : TOKEN_MAX < addDiff r.r_tokens (now - r.r_last_time) := by
    rw [ha, hTM]
    omega
  rw [entry_step]
  rw [if_pos hgt, if_pos (by decide : INITIATION_COST ≤ TOKEN_MAX)]

/-- Claim C8 amended: the token-bucket update does *not* clamp
`dt = now - r_last_time` at zero.  When the clock is observed going
backward past the entry's token count (by at most `2 ^ 63` ticks), the
unsigned 64-bit wrap-around of `r_tokens + dt` exceeds `TOKEN_MAX`, the
cap clamp sets the replenished tokens to the full `TOKEN_MAX`, and the
call is allowed, storing `TOKEN_MAX - INITIATION_COST` — strictly more
than a `dt = 0` update could ever store.  (The stored count still never
exceeds `TOKEN_MAX`.) -/
theorem claim_C8_amended (rl : Ratelimit) (sa : Sockaddr) (now : Int)
    (allocOk : Bool) (pre post : List RatelimitEntry) (r : RatelimitEntry)
    (haf : sa.sa_family = AF_INET ∨ sa.sa_family = AF_INET6)
    (hbucket : rl.rl_table (rl.rl_hash (sa_masked sa) &&& rl.rl_table_mask) =
      pre ++ r :: post)
    (hpre : ∀ e ∈ pre, entry_matches sa.sa_family (sa_masked sa) e = false)
    (hr : entry_matches sa.sa_family (sa_masked sa) r = true)
    (hwrap : (r.r_tokens : Int) + (now - r.r_last_time) < 0)
    (hbound : r.r_last_time ≤ now + 9223372036854775808) :
    ratelimit_allow rl sa now allocOk =
      (let idx := rl.rl_hash (sa_masked sa) &&& rl.rl_table_mask
       let r' : RatelimitEntry := { r with r_last_time := now, r_tokens := TOKEN_MAX - INITIATION_COST }
       ({ rl with rl_table := Function.update rl.rl_table idx (pre ++ r' :: post) }, 0)) := by
  have hbu := bucket_update_found now sa.sa_family (sa_masked sa) pre post r
    hpre hr
  have hstep := entry_step_backward now r hwrap hbound
  rw [ratelimit_allow, if_pos haf]
  simp only []
  rw [hbucket, hbu, hstep]

/-- Witness for the amended C8 at the counterexample input. -/
theorem claim_C8_witness :
    ((rC8.r_tokens : Int) + (0 - rC8.r_last_time) < 0 ∧
     rC8.r_last_time ≤ 0 + 9223372036854775808) ∧
    ratelimit_allow (mkRl [rC8] 1) saW4 0 true =
      (let idx := (mkRl [rC8] 1).rl_hash (sa_masked saW4) &&& (mkRl [rC8] 1).rl_table_mask
       let r' : RatelimitEntry := { rC8 with r_last_time := 0, r_tokens := TOKEN_MAX - INITIATION_COST }
       ({ mkRl [rC8] 1 with rl_table := Function.update (mkRl [rC8] 1).rl_table idx ([] ++ r' :: []) }, 0)) :=
  ⟨⟨by decide, by decide⟩,
   claim_C8_amended (mkRl [rC8] 1) saW4 0 true [] [] rC8 (Or.inl rfl) rfl
     (by simp) (by decide) (by decide) (by decide)⟩

end WgCookie
